import Mathlib

/-!
Verification development for the `energy-modeling` repository.

The repository builds a battery dispatch optimization model (Pyomo, two
formulations: a lossless LP in `battery_model` and a loss-aware MIP in
`battery_model_no_eff`, both in `src/models/dispatch_opt.py`), and a
post-processing / finance layer (`src/post_processing/finance_calcs.py`)
that extracts results, computes per-interval profit, aggregates to
calendar-day profit and discounts it to an NPV.

The embedding below translates the constraint systems of the two model
builders into predicates over real-valued assignments of the decision
variables, and the finance layer into pure functions over lists of rows.
Timestamps are modelled as integer hours since an epoch, so that a
calendar day of a timestamp `h` is `h / 24` and pandas
`Timedelta.days` (which floors) is division by 24 of an hour difference
(`ℤ` division is Euclidean, which floors for a positive divisor).
-/

namespace EnergyModeling

/-! ## Embedding of `src/models/dispatch_opt.py`

Scalar parameters of the battery model, read from the `input_scalar`
frame: `P_d_max`, `P_c_max`, `Emax`, `SOC_min`, `SOC_max`, `delta_t`,
`eta_conv`, `eta_self`, and the starting/ending SOC used by
`storage_state_rule` and `boundary_conditions_rule`. -/
structure ScalarInputs where
  P_d_max : ℝ
  P_c_max : ℝ
  Emax : ℝ
  SOC_min : ℝ
  SOC_max : ℝ
  delta_t : ℝ
  eta_conv : ℝ
  eta_self : ℝ
  SOC_start : ℝ

/-- An assignment of values to the time-indexed decision variables of the
Pyomo model: `P_d`, `P_c`, `S`, `P_m`, and (in the loss-aware model only)
the indicator `u`.  Only the values at `t < T` are constrained. -/
structure Assignment where
  P_d : ℕ → ℝ
  P_c : ℕ → ℝ
  S : ℕ → ℝ
  P_m : ℕ → ℝ
  u : ℕ → ℝ

/-- Variable domains common to both models:
`P_d`, `P_c` and `S` are declared `within=pyo.NonNegativeReals`
(`P_m` is `within=pyo.Reals`, unconstrained). -/
def varDomains (T : ℕ) (a : Assignment) : Prop :=
  ∀ t, t < T → 0 ≤ a.P_d t ∧ 0 ≤ a.P_c t ∧ 0 ≤ a.S t

/-- `power_balance_rule`: `m.P_m[t] == m.P_c[t] - m.P_d[t] + m.P_l[t]`. -/
def powerBalanceCon (T : ℕ) (P_l : ℕ → ℝ) (a : Assignment) : Prop :=
  ∀ t, t < T → a.P_m t = a.P_c t - a.P_d t + P_l t

/-- `storage_state_rule`: at `t = 0`,
`m.S[t] == input_scalar['Starting/Ending SOC']`; otherwise
`m.S[t] == m.S[t-1] * (1 - m.eta_self * m.delta_t)
  + m.delta_t / m.Emax * (m.P_c[t-1] * m.eta_conv - m.P_d[t-1] / m.eta_conv)`. -/
def storageStateCon (T : ℕ) (p : ScalarInputs) (a : Assignment) : Prop :=
  ∀ t, t < T →
    (t = 0 → a.S t = p.SOC_start) ∧
    (t ≠ 0 → a.S t = a.S (t - 1) * (1 - p.eta_self * p.delta_t)
      + p.delta_t / p.Emax * (a.P_c (t - 1) * p.eta_conv - a.P_d (t - 1) / p.eta_conv))

/-- `storage_power_rule`: `m.P_d[t] * m.delta_t <= m.Emax * m.S[t]`. -/
def storagePowerCon (T : ℕ) (p : ScalarInputs) (a : Assignment) : Prop :=
  ∀ t, t < T → a.P_d t * p.delta_t ≤ p.Emax * a.S t

/-- `boundary_conditions_rule`: at `t = len(m.t) - 1`,
`m.S[t] == input_scalar['Starting/Ending SOC']`; skipped otherwise. -/
def boundaryCon (T : ℕ) (p : ScalarInputs) (a : Assignment) : Prop :=
  ∀ t, t < T → t = T - 1 → a.S t = p.SOC_start

/-- `max_charge_power_rule` of the lossless model: `m.P_c[t] <= m.P_c_max`. -/
def maxChargeConLossless (T : ℕ) (p : ScalarInputs) (a : Assignment) : Prop :=
  ∀ t, t < T → a.P_c t ≤ p.P_c_max

/-- `max_discharge_power_rule` of the lossless model: `m.P_d[t] <= m.P_d_max`. -/
def maxDischargeConLossless (T : ℕ) (p : ScalarInputs) (a : Assignment) : Prop :=
  ∀ t, t < T → a.P_d t ≤ p.P_d_max

/-- In the loss-aware model `m.u` is `within=pyo.Binary`. -/
def binaryCon (T : ℕ) (a : Assignment) : Prop :=
  ∀ t, t < T → a.u t = 0 ∨ a.u t = 1

/-- `max_charge_power_rule` of the loss-aware model:
`m.P_c[t] <= m.P_c_max * m.u[t]`. -/
def maxChargeConLossAware (T : ℕ) (p : ScalarInputs) (a : Assignment) : Prop :=
  ∀ t, t < T → a.P_c t ≤ p.P_c_max * a.u t

/-- `max_discharge_power_rule` of the loss-aware model:
`m.P_d[t] <= m.P_d_max * (1 - m.u[t])`. -/
def maxDischargeConLossAware (T : ℕ) (p : ScalarInputs) (a : Assignment) : Prop :=
  ∀ t, t < T → a.P_d t ≤ p.P_d_max * (1 - a.u t)

/-- `soc_min_rule`: `m.S[t] >= m.SOC_min`. -/
def socMinCon (T : ℕ) (p : ScalarInputs) (a : Assignment) : Prop :=
  ∀ t, t < T → p.SOC_min ≤ a.S t

/-- `soc_max_rule`: `m.S[t] <= m.SOC_max`. -/
def socMaxCon (T : ℕ) (p : ScalarInputs) (a : Assignment) : Prop :=
  ∀ t, t < T → a.S t ≤ p.SOC_max

/-- Feasibility for the lossless LP built by `battery_model`
(`src/models/dispatch_opt.py`, lines 28–99): the conjunction of the
variable domains and every constraint the builder adds. -/
def feasibleLossless (T : ℕ) (p : ScalarInputs) (P_l : ℕ → ℝ) (a : Assignment) : Prop :=
  varDomains T a ∧ powerBalanceCon T P_l a ∧ storageStateCon T p a ∧
    storagePowerCon T p a ∧ boundaryCon T p a ∧ maxChargeConLossless T p a ∧
    maxDischargeConLossless T p a ∧ socMinCon T p a ∧ socMaxCon T p a

/-- Feasibility for the loss-aware MIP built by `battery_model_no_eff`
(`src/models/dispatch_opt.py`, lines 137–208): same as the lossless model
except the power limits are gated by the binary indicator `u`. -/
def feasibleLossAware (T : ℕ) (p : ScalarInputs) (P_l : ℕ → ℝ) (a : Assignment) : Prop :=
  varDomains T a ∧ binaryCon T a ∧ powerBalanceCon T P_l a ∧ storageStateCon T p a ∧
    storagePowerCon T p a ∧ boundaryCon T p a ∧ maxChargeConLossAware T p a ∧
    maxDischargeConLossAware T p a ∧ socMinCon T p a ∧ socMaxCon T p a

/-! ### Concrete feasible assignments used as witnesses -/

/-- Concrete scalar inputs: 1 MW charge/discharge limits, 1 MWh capacity,
SOC range `[0, 1]`, 1-hour steps, perfect efficiency, no self-discharge,
starting/ending SOC 0. -/
def wParams : ScalarInputs :=
  { P_d_max := 1, P_c_max := 1, Emax := 1, SOC_min := 0, SOC_max := 1,
    delta_t := 1, eta_conv := 1, eta_self := 0, SOC_start := 0 }

/-- Zero load profile. -/
def wLoad : ℕ → ℝ := fun _ => 0

/-- A charge-then-discharge schedule over a 3-step horizon: charge 1 MW at
`t = 0`, discharge 1 MW at `t = 1`, idle at `t = 2`. -/
def wSolA : Assignment where
  P_d := fun t => if t = 1 then 1 else 0
  P_c := fun t => if t = 0 then 1 else 0
  S := fun t => if t = 1 then 1 else 0
  P_m := fun t => if t = 0 then 1 else if t = 1 then -1 else 0
  u := fun t => if t = 0 then 1 else 0

/-- The all-idle schedule over a 2-step horizon. -/
def wSolZ : Assignment where
  P_d := fun _ => 0
  P_c := fun _ => 0
  S := fun _ => 0
  P_m := fun _ => 0
  u := fun _ => 0

/-! ## Embedding of `src/post_processing/finance_calcs.py`

### Result extraction (`extract_results`)

`extract_results` builds a DataFrame of the solved variable values (one
row per `t` of the model, default integer index `0..T-1`) and then
assigns `input_ts`'s `INTERVAL_START`, `LMP` and `load` columns to it.
With the zero-based integer index both frames carry, pandas aligns these
assignments positionally: position `t` of the output receives
`input_ts`'s row `t` when it exists, and a missing value otherwise;
extra `input_ts` rows are discarded.  No exception is raised on a length
mismatch.  The `Option` fields model the possibly-missing joined values. -/

structure TimeSeriesRow where
  INTERVAL_START : ℤ
  LMP : ℝ
  load : ℝ

/-- Solved decision-variable values at one time step, as read back from
the model by `extract_results`. -/
structure SolRow where
  P_d : ℝ
  P_c : ℝ
  S : ℝ
  P_m : ℝ

/-- One row of the frame returned by `extract_results`: the variable
values at `t`, joined with `input_ts`'s row `t` when it exists. -/
structure ExtractRow where
  P_d : ℝ
  P_c : ℝ
  S : ℝ
  P_m : ℝ
  time : Option ℤ
  LMP : Option ℝ
  load : Option ℝ

/-- The single alignment failure the spec names.  `extract_results` never
raises it (there is no raise in the source), which the outcome type below
makes expressible. -/
inductive ExtractErr where
  | alignmentError
deriving DecidableEq

/-- Outcome of result extraction: a table, or a raised error. -/
inductive ExtractOutcome where
  | ok : List ExtractRow → ExtractOutcome
  | error : ExtractErr → ExtractOutcome

/-- The output row at position `t`: the solved values `s` joined with
`input_ts`'s row `t` when it exists. -/
def mkJoined (ts : List TimeSeriesRow) (t : ℕ) (s : SolRow) : ExtractRow :=
  { P_d := s.P_d, P_c := s.P_c, S := s.S, P_m := s.P_m,
    time := (ts.get? t).map (fun r => r.INTERVAL_START),
    LMP := (ts.get? t).map (fun r => r.LMP),
    load := (ts.get? t).map (fun r => r.load) }

/-- Positional join of the solved rows (from index `t` on) with the fixed
input time series. -/
def joinRows (ts : List TimeSeriesRow) : ℕ → List SolRow → List ExtractRow
  | _, [] => []
  | t, s :: rest => mkJoined ts t s :: joinRows ts (t + 1) rest

/-- `extract_results(m, input_ts)`: joins the solved variable values with
the time series positionally and returns the table unconditionally. -/
def extract_results (sol : List SolRow) (input_ts : List TimeSeriesRow) : ExtractOutcome :=
  .ok (joinRows input_ts 0 sol)

/-! ### Profit and discounting (`calculate_profit`)

The fields of `finance_inputs` that `calculate_profit` reads:
`'Time Step (hours)'` (lines 91–92), `'Real Discount Rate (%)'` (line
102) and `'Inflation Rate (%)'` (line 103).  The frame is a pandas
DataFrame and may carry further columns; `other` stands for any such
additional columns, which `calculate_profit` never reads. -/

structure FinanceInputs where
  realDiscountRate : ℝ
  inflationRate : ℝ
  timeStep : ℝ
  other : List ℝ

/-- One row of the aligned result table consumed by the profit and
discounting computations, with its timestamp in integer hours. -/
structure ResultRow where
  time : ℤ
  LMP : ℝ
  load : ℝ
  P_m : ℝ
  P_c : ℝ
  P_d : ℝ
  S : ℝ

/-- `df_results['profit'] = -1 * LMP * P_m * Time Step`. -/
noncomputable def profitRow (f : FinanceInputs) (r : ResultRow) : ℝ :=
  -1 * r.LMP * r.P_m * f.timeStep

/-- `df_results['no_battery_profit'] = -1 * LMP * load * Time Step`. -/
noncomputable def noBatteryProfitRow (f : FinanceInputs) (r : ResultRow) : ℝ :=
  -1 * r.LMP * r.load * f.timeStep

/-- `df_results['battery_profit'] = profit - no_battery_profit`. -/
noncomputable def batteryProfitRow (f : FinanceInputs) (r : ResultRow) : ℝ :=
  profitRow f r - noBatteryProfitRow f r

/-- `nominal_discount_rate = (1 + real_discount_rate) * (1 + inflation_rate) - 1`. -/
noncomputable def nominalDiscountRate (f : FinanceInputs) : ℝ :=
  (1 + f.realDiscountRate) * (1 + f.inflationRate) - 1

/-- `daily_discount_rate = (1 + nominal_discount_rate) ** (1/365) - 1`
(real exponentiation). -/
noncomputable def dailyDiscountRate (f : FinanceInputs) : ℝ :=
  (1 + nominalDiscountRate f) ^ ((1 : ℝ) / 365) - 1

/-- The calendar day of a timestamp in integer hours.  Pandas buckets a
timestamp into the calendar day containing it (floor division by 24
hours); for the positive divisor 24 the `ℤ` division `/` (Euclidean)
coincides with floor division. -/
def calendarDay (h : ℤ) : ℤ := h / 24

/-- `start_date = df_results['time (hours)'].min()`. -/
def minTime : List ResultRow → ℤ
  | [] => 0
  | r :: rest => rest.foldl (fun acc x => min acc x.time) r.time

def maxTime : List ResultRow → ℤ
  | [] => 0
  | r :: rest => rest.foldl (fun acc x => max acc x.time) r.time

/-- The calendar days spanned by the table, first to last: the row labels
`resample('D')` produces (one per day, empty days included). -/
def dayList (rows : List ResultRow) : List ℤ :=
  (List.range ((calendarDay (maxTime rows) - calendarDay (minTime rows)).toNat + 1)).map
    (fun k : ℕ => calendarDay (minTime rows) + (k : ℤ))

/-- `resample('D').sum()` of `battery_profit`: the sum over exactly the
rows whose timestamp falls on calendar day `d`. -/
noncomputable def daySum (f : FinanceInputs) (rows : List ResultRow) (d : ℤ) : ℝ :=
  ((rows.filter (fun r => calendarDay r.time = d)).map (batteryProfitRow f)).sum

/-- `day_of_sim = (day index entry - start_date).days`: the day entry for
calendar day `d` is its midnight, hour `24 * d`; pandas `Timedelta.days`
floors, which for the positive divisor 24 is the `ℤ` division `/`. -/
def dayOfSim (rows : List ResultRow) (d : ℤ) : ℤ :=
  (24 * d - minTime rows) / 24

/-- The daily finance table: one entry `(day, battery_profit, day_of_sim)`
per calendar day spanned by the result table. -/
noncomputable def dailyFinances (f : FinanceInputs) (rows : List ResultRow) : List (ℤ × ℝ × ℤ) :=
  (dayList rows).map (fun d => (d, daySum f rows d, dayOfSim rows d))

/-- `discounted_profit = battery_profit / (1 + daily_discount_rate) ** day_of_sim`
(`day_of_sim` is an integer, so this is an integer power). -/
noncomputable def discountedProfit (f : FinanceInputs) (p : ℝ) (dos : ℤ) : ℝ :=
  p / (1 + dailyDiscountRate f) ^ dos

/-- `npv_op_profit = daily_finances['discounted_profit'].sum()`. -/
noncomputable def npvOpProfit (f : FinanceInputs) (rows : List ResultRow) : ℝ :=
  ((dailyFinances f rows).map (fun e => discountedProfit f e.2.1 e.2.2)).sum

/-! ## Embedding of the solver invocation step

Both `battery_model` (`src/models/dispatch_opt.py`, lines 107–110) and
`battery_model_no_eff` (lines 216–219) end with
`solver = pyo.SolverFactory('appsi_highs')`,
`results = solver.solve(m, tee=True)` and `return m, results`: whatever
termination condition the external solver reports is passed back to the
caller inside the results object, unconditionally.  There is no `raise`
statement (and no error class) anywhere in `src/models/dispatch_opt.py`
or `src/post_processing/finance_calcs.py`.  The outcome type below makes
"return the results" and "raise an error" distinguishable so that the
spec's error contract can be stated. -/

/-- Termination conditions the external solver can report. -/
inductive TerminationCondition where
  | optimal
  | infeasible
  | unbounded
  | solverUnavailable
  | otherError
deriving DecidableEq

/-- The results object handed back by the external solver: its
termination condition. -/
structure SolverResults where
  termination : TerminationCondition
deriving DecidableEq

/-- The error taxonomy the spec assigns to the solve step. -/
inductive SolveErr where
  | infeasibleError
  | solverUnavailableError
  | solveError
deriving DecidableEq

/-- Outcome of the solve step: either the results object is returned to
the caller, or an error is raised. -/
inductive SolveOutcome where
  | returned : SolverResults → SolveOutcome
  | raised : SolveErr → SolveOutcome
deriving DecidableEq

/-- The solve step of `battery_model` (lines 108–110): return the
external solver's results object, whatever its termination condition. -/
def battery_model_solve (results : SolverResults) : SolveOutcome :=
  .returned results

/-- The solve step of `battery_model_no_eff` (lines 217–219): identical. -/
def battery_model_no_eff_solve (results : SolverResults) : SolveOutcome :=
  .returned results

/-! ## Concrete inputs used by witnesses and counterexamples -/

/-- A finance record with 3%/2% rates and 1-hour steps, no extra columns. -/
noncomputable def wFin : FinanceInputs :=
  { realDiscountRate := 3 / 100, inflationRate := 2 / 100, timeStep := 1, other := [] }

/-- Same rates and step as `wFin` but a different extra column. -/
noncomputable def wFinOther : FinanceInputs :=
  { realDiscountRate := 3 / 100, inflationRate := 2 / 100, timeStep := 1, other := [7] }

/-- Same rates as `wFin` but a 2-hour time step. -/
noncomputable def cFinStep2 : FinanceInputs :=
  { realDiscountRate := 3 / 100, inflationRate := 2 / 100, timeStep := 2, other := [] }

/-- Zero discount and inflation rates, 1-hour steps. -/
noncomputable def cFinLow : FinanceInputs :=
  { realDiscountRate := 0, inflationRate := 0, timeStep := 1, other := [] }

/-- A discount rate of `2^365 - 1` (so the daily rate is exactly 1),
zero inflation, 1-hour steps. -/
noncomputable def cFinHigh : FinanceInputs :=
  { realDiscountRate := 2 ^ (365 : ℕ) - 1, inflationRate := 0, timeStep := 1, other := [] }

/-- A result row at hour 0 with price 1, no load, and net grid power 1
(the battery charging 1 MW): its battery profit is `-timeStep`. -/
noncomputable def cRowCharge : ResultRow :=
  { time := 0, LMP := 1, load := 0, P_m := 1, P_c := 1, P_d := 0, S := 0 }

/-- A result row at hour 0 with price 1, no load, and net grid power −1
(the battery discharging 1 MW): its battery profit is `timeStep`. -/
noncomputable def cRowDischarge : ResultRow :=
  { time := 0, LMP := 1, load := 0, P_m := -1, P_c := 0, P_d := 1, S := 0 }

/-- A quiet result row at hour 0 (price 0): zero battery profit. -/
noncomputable def cRowQuiet : ResultRow :=
  { time := 0, LMP := 0, load := 0, P_m := 0, P_c := 0, P_d := 0, S := 0 }

/-- A charging row on the next calendar day (hour 24). -/
noncomputable def cRowChargeDay1 : ResultRow :=
  { time := 24, LMP := 1, load := 0, P_m := 1, P_c := 1, P_d := 0, S := 0 }

/-- A row satisfying the power-balance constraint
`P_m = P_c − P_d + load` with nonzero load. -/
noncomputable def cRowBalanced : ResultRow :=
  { time := 0, LMP := 2, load := 3, P_m := 4, P_c := 1, P_d := 0, S := 0 }

/-- A two-day result table: quiet on day 0, charging (negative battery
profit) on day 1. -/
noncomputable def cRowsTwoDay : List ResultRow := [cRowQuiet, cRowChargeDay1]

/-- A one-row result table with nonnegative battery profit. -/
noncomputable def cRowsDischarge : List ResultRow := [cRowDischarge]

/-- Solved variable values for a 2-step horizon. -/
noncomputable def cSolRows : List SolRow :=
  [{ P_d := 0, P_c := 1, S := 0, P_m := 1 }, { P_d := 1, P_c := 0, S := 1, P_m := -1 }]

/-- A 1-row input time series: one interval shorter than `cSolRows`. -/
noncomputable def cTsShort : List TimeSeriesRow :=
  [{ INTERVAL_START := 0, LMP := 5, load := 0 }]

/-! ## Helper lemmas -/

lemma wSolA_feasible : feasibleLossAware 3 wParams wLoad wSolA := by
  refine ⟨?_, ?_, ?_, ?_, ?_, ?_, ?_, ?_, ?_, ?_⟩ <;>
    · intro t ht
      interval_cases t <;>
        simp [wSolA, wParams, wLoad, varDomains, binaryCon, powerBalanceCon,
          storageStateCon, storagePowerCon, boundaryCon, maxChargeConLossAware,
          maxDischargeConLossAware, socMinCon, socMaxCon]

lemma wSolZ_feasible : feasibleLossless 2 wParams wLoad wSolZ := by
  refine ⟨?_, ?_, ?_, ?_, ?_, ?_, ?_, ?_, ?_⟩ <;>
    · intro t ht
      simp [wSolZ, wParams, wLoad, varDomains, powerBalanceCon,
        storageStateCon, storagePowerCon, boundaryCon, maxChargeConLossless,
        maxDischargeConLossless, socMinCon, socMaxCon]

/-! ## Claims C1–C3: properties of every feasible solution -/

/-- **C1.** In both dispatch formulations (lossless and loss-aware), every
feasible solution satisfies, for every time index `0 < t < T`,
`S[t] = S[t-1]·(1 − η_self·Δt) + (Δt / E_max)·(P_c[t-1]·η_conv − P_d[t-1]/η_conv)`,
and at `t = 0` it satisfies `S[0] = SOC_start`. -/
theorem storage_state_recurrence (T : ℕ) (p : ScalarInputs) (P_l : ℕ → ℝ)
    (a : Assignment)
    (hfeas : feasibleLossless T p P_l a ∨ feasibleLossAware T p P_l a) :
    (0 < T → a.S 0 = p.SOC_start) ∧
    ∀ t, 0 < t → t < T →
      a.S t = a.S (t - 1) * (1 - p.eta_self * p.delta_t)
        + p.delta_t / p.Emax * (a.P_c (t - 1) * p.eta_conv - a.P_d (t - 1) / p.eta_conv) := by
  have hss : storageStateCon T p a := by
    rcases hfeas with h | h
    · exact h.2.2.1
    · exact h.2.2.2.1
  constructor
  · intro hT
    exact (hss 0 hT).1 rfl
  · intro t ht htT
    exact (hss t htT).2 (Nat.pos_iff_ne_zero.mp ht)

/-- Witness for C1: the concrete feasible loss-aware schedule `wSolA`
satisfies the recurrence at `t = 1` and the initial condition at `t = 0`. -/
theorem storage_state_recurrence_witness :
    wSolA.S 0 = wParams.SOC_start ∧
    wSolA.S 1 = wSolA.S 0 * (1 - wParams.eta_self * wParams.delta_t)
      + wParams.delta_t / wParams.Emax
        * (wSolA.P_c 0 * wParams.eta_conv - wSolA.P_d 0 / wParams.eta_conv) := by
  have h := storage_state_recurrence 3 wParams wLoad wSolA (Or.inr wSolA_feasible)
  exact ⟨h.1 (by norm_num), h.2 1 (by norm_num) (by norm_num)⟩

/-- **C2.** In the loss-aware (mixed-integer) formulation, every feasible
solution has mutually exclusive charge and discharge: at every `t < T`,
`P_c[t] > 0` implies `P_d[t] = 0` and `P_d[t] > 0` implies `P_c[t] = 0`. -/
theorem loss_aware_mutual_exclusivity (T : ℕ) (p : ScalarInputs) (P_l : ℕ → ℝ)
    (a : Assignment) (hfeas : feasibleLossAware T p P_l a) (t : ℕ) (ht : t < T) :
    (0 < a.P_c t → a.P_d t = 0) ∧ (0 < a.P_d t → a.P_c t = 0) := by
  obtain ⟨hdom, hbin, -, -, -, -, hc, hd, -, -⟩ := hfeas
  have hd0 : 0 ≤ a.P_d t := (hdom t ht).1
  have hc0 : 0 ≤ a.P_c t := (hdom t ht).2.1
  have hcle : a.P_c t ≤ p.P_c_max * a.u t := hc t ht
  have hdle : a.P_d t ≤ p.P_d_max * (1 - a.u t) := hd t ht
  rcases hbin t ht with hu | hu
  · -- u = 0: charging is forced to zero
    constructor
    · intro hpos
      exfalso
      rw [hu, mul_zero] at hcle
      exact absurd (lt_of_lt_of_le hpos hcle) (lt_irrefl 0)
    · intro _
      rw [hu, mul_zero] at hcle
      exact le_antisymm hcle hc0
  · -- u = 1: discharging is forced to zero
    constructor
    · intro _
      rw [hu] at hdle
      simp only [sub_self, mul_zero] at hdle
      exact le_antisymm hdle hd0
    · intro hpos
      exfalso
      rw [hu] at hdle
      simp only [sub_self, mul_zero] at hdle
      exact absurd (lt_of_lt_of_le hpos hdle) (lt_irrefl 0)

/-- Witness for C2: in the concrete schedule `wSolA`, charging at `t = 0`
forces zero discharge there, and discharging at `t = 1` forces zero charge. -/
theorem loss_aware_mutual_exclusivity_witness :
    wSolA.P_d 0 = 0 ∧ wSolA.P_c 1 = 0 := by
  refine ⟨(loss_aware_mutual_exclusivity 3 wParams wLoad wSolA wSolA_feasible 0
    (by norm_num)).1 ?_,
    (loss_aware_mutual_exclusivity 3 wParams wLoad wSolA wSolA_feasible 1
    (by norm_num)).2 ?_⟩ <;> norm_num [wSolA]

/-- **C3.** In both formulations, every feasible solution of a nonempty
horizon satisfies the boundary conditions `S[0] = SOC_start` and
`S[T-1] = SOC_start`: the battery returns to its initial state of charge. -/
theorem soc_boundary_conditions (T : ℕ) (p : ScalarInputs) (P_l : ℕ → ℝ)
    (a : Assignment) (hT : 0 < T)
    (hfeas : feasibleLossless T p P_l a ∨ feasibleLossAware T p P_l a) :
    a.S 0 = p.SOC_start ∧ a.S (T - 1) = p.SOC_start := by
  have hss : storageStateCon T p a := by
    rcases hfeas with h | h
    · exact h.2.2.1
    · exact h.2.2.2.1
  have hbc : boundaryCon T p a := by
    rcases hfeas with h | h
    · exact h.2.2.2.2.1
    · exact h.2.2.2.2.2.1
  refine ⟨(hss 0 hT).1 rfl, hbc (T - 1) ?_ rfl⟩
  omega

/-- Witness for C3: the concrete lossless schedule `wSolZ` starts and ends
at the starting SOC of `wParams`. -/
theorem soc_boundary_conditions_witness :
    wSolZ.S 0 = wParams.SOC_start ∧ wSolZ.S (2 - 1) = wParams.SOC_start :=
  soc_boundary_conditions 2 wParams wLoad wSolZ (by norm_num) (Or.inl wSolZ_feasible)

/-! ## Claim C6: the daily finance table -/

lemma foldl_min_le_init (l : List ResultRow) :
    ∀ a : ℤ, l.foldl (fun acc x => min acc x.time) a ≤ a := by
  induction l with
  | nil => intro a; exact le_refl a
  | cons x xs ih => intro a; exact (ih (min a x.time)).trans (min_le_left _ _)

lemma foldl_min_le_mem (l : List ResultRow) :
    ∀ a : ℤ, ∀ r ∈ l, l.foldl (fun acc x => min acc x.time) a ≤ r.time := by
  induction l with
  | nil => intro a r hr; cases hr
  | cons x xs ih =>
      intro a r hr
      rcases List.mem_cons.mp hr with rfl | hr
      · exact (foldl_min_le_init xs _).trans (min_le_right _ _)
      · exact ih _ r hr

lemma init_le_foldl_max (l : List ResultRow) :
    ∀ a : ℤ, a ≤ l.foldl (fun acc x => max acc x.time) a := by
  induction l with
  | nil => intro a; exact le_refl a
  | cons x xs ih => intro a; exact (le_max_left _ _).trans (ih (max a x.time))

lemma mem_le_foldl_max (l : List ResultRow) :
    ∀ a : ℤ, ∀ r ∈ l, r.time ≤ l.foldl (fun acc x => max acc x.time) a := by
  induction l with
  | nil => intro a r hr; cases hr
  | cons x xs ih =>
      intro a r hr
      rcases List.mem_cons.mp hr with rfl | hr
      · exact (le_max_right _ _).trans (init_le_foldl_max xs _)
      · exact ih _ r hr

/-- The minimum of the `time` column bounds every row's timestamp below. -/
lemma minTime_le {rows : List ResultRow} {r : ResultRow} (hr : r ∈ rows) :
    minTime rows ≤ r.time := by
  cases rows with
  | nil => cases hr
  | cons x xs =>
      rcases List.mem_cons.mp hr with rfl | hr
      · exact foldl_min_le_init xs _
      · exact foldl_min_le_mem xs _ r hr

/-- The maximum of the `time` column bounds every row's timestamp above. -/
lemma le_maxTime {rows : List ResultRow} {r : ResultRow} (hr : r ∈ rows) :
    r.time ≤ maxTime rows := by
  cases rows with
  | nil => cases hr
  | cons x xs =>
      rcases List.mem_cons.mp hr with rfl | hr
      · exact init_le_foldl_max xs _
      · exact mem_le_foldl_max xs _ r hr

lemma calendarDay_mono {a b : ℤ} (h : a ≤ b) : calendarDay a ≤ calendarDay b := by
  unfold calendarDay
  omega

/-- Every row's calendar day appears among the resampled day labels. -/
lemma mem_dayList {rows : List ResultRow} {r : ResultRow} (hr : r ∈ rows) :
    calendarDay r.time ∈ dayList rows := by
  have h1 : calendarDay (minTime rows) ≤ calendarDay r.time :=
    calendarDay_mono (minTime_le hr)
  have h2 : calendarDay r.time ≤ calendarDay (maxTime rows) :=
    calendarDay_mono (le_maxTime hr)
  have hmem : (calendarDay r.time - calendarDay (minTime rows)).toNat
      ∈ List.range ((calendarDay (maxTime rows) - calendarDay (minTime rows)).toNat + 1) :=
    List.mem_range.mpr (by omega)
  have heq : calendarDay (minTime rows)
      + ((calendarDay r.time - calendarDay (minTime rows)).toNat : ℤ) = calendarDay r.time := by
    omega
  unfold dayList
  rw [← heq]
  exact List.mem_map_of_mem _ hmem

/-- **C6.** Each entry of the daily finance table sums `battery_profit`
over exactly the rows of the result table whose timestamp's calendar
date is that entry's day (so partial first/last days sum only the
intervals on that date), its `day_of_sim` is the floor of the number of
days elapsed from the first timestamp of the result table to that day's
label, and every row of the result table falls on some entry's day. -/
theorem daily_finances_calendar_day_sums (f : FinanceInputs) (rows : List ResultRow)
    (e : ℤ × ℝ × ℤ) (he : e ∈ dailyFinances f rows) :
    e.2.1 = ((rows.filter (fun r => calendarDay r.time = e.1)).map (batteryProfitRow f)).sum ∧
    e.2.2 = (24 * e.1 - minTime rows) / 24 ∧
    ∀ r ∈ rows, ∃ e' ∈ dailyFinances f rows, e'.1 = calendarDay r.time := by
  obtain ⟨d, -, rfl⟩ := List.mem_map.mp he
  refine ⟨rfl, rfl, ?_⟩
  intro r hr
  exact ⟨(calendarDay r.time, daySum f rows (calendarDay r.time),
      dayOfSim rows (calendarDay r.time)),
    List.mem_map.mpr ⟨calendarDay r.time, mem_dayList hr, rfl⟩, rfl⟩

/-- Witness for C6: the single-day table over `cRowsDischarge` has the
filtered sum and floored day offset at its day-0 entry. -/
theorem daily_finances_calendar_day_sums_witness :
    daySum wFin cRowsDischarge 0 =
      ((cRowsDischarge.filter (fun r => calendarDay r.time = 0)).map
        (batteryProfitRow wFin)).sum ∧
    dayOfSim cRowsDischarge 0 = (24 * 0 - minTime cRowsDischarge) / 24 := by
  have h := daily_finances_calendar_day_sums wFin cRowsDischarge
    (0, daySum wFin cRowsDischarge 0, dayOfSim cRowsDischarge 0)
    (by simp [dailyFinances, dayList, minTime, maxTime, calendarDay,
      cRowsDischarge, cRowDischarge])
  exact ⟨h.1, h.2.1⟩

/-! ## Claim C4: the discounting formulas -/

/-- **C4.** The discounting engine computes the nominal rate as
`(1 + real)·(1 + inflation) − 1`, the daily rate as
`(1 + nominal)^(1/365) − 1`, each day's discounted profit as that day's
battery profit divided by `(1 + daily)^day_of_sim`, and the NPV as the
sum of discounted profit over all days. -/
theorem npv_discounting_formulas (f : FinanceInputs) (rows : List ResultRow) :
    nominalDiscountRate f = (1 + f.realDiscountRate) * (1 + f.inflationRate) - 1 ∧
    dailyDiscountRate f =
      (1 + ((1 + f.realDiscountRate) * (1 + f.inflationRate) - 1)) ^ ((1 : ℝ) / 365) - 1 ∧
    (∀ e ∈ dailyFinances f rows,
      discountedProfit f e.2.1 e.2.2 = e.2.1 / (1 + dailyDiscountRate f) ^ e.2.2) ∧
    npvOpProfit f rows =
      ((dailyFinances f rows).map
        (fun e => e.2.1 / (1 + dailyDiscountRate f) ^ e.2.2)).sum := by
  exact ⟨rfl, rfl, fun e _ => rfl, rfl⟩

/-! ## Claim C5: behaviour of the solve step on non-optimal statuses -/

/-- Counterexample to C5 as stated: when the external solver reports the
optimization infeasible, neither `battery_model` nor
`battery_model_no_eff` raises `InfeasibleError` — each returns the solver
results object to its caller. -/
theorem solve_returns_results_on_infeasible :
    battery_model_solve { termination := TerminationCondition.infeasible } ≠
      SolveOutcome.raised SolveErr.infeasibleError ∧
    battery_model_no_eff_solve { termination := TerminationCondition.infeasible } ≠
      SolveOutcome.raised SolveErr.infeasibleError := by
  decide

/-- **C5 (amended).** The solve step of both formulations returns the
external solver's results object for every termination condition; no
repository-defined error (`InfeasibleError`, `SolverUnavailableError`,
`SolveError`) is ever raised — status handling is left to the caller. -/
theorem solve_always_returns_results (r : SolverResults) :
    battery_model_solve r = SolveOutcome.returned r ∧
    battery_model_no_eff_solve r = SolveOutcome.returned r :=
  ⟨rfl, rfl⟩

/-! ## Claim C8: result extraction -/

lemma joinRows_length (ts : List TimeSeriesRow) (sol : List SolRow) :
    ∀ k, (joinRows ts k sol).length = sol.length := by
  induction sol with
  | nil => intro k; rfl
  | cons s rest ih => intro k; simp [joinRows, ih]

lemma joinRows_get (ts : List TimeSeriesRow) (sol : List SolRow) :
    ∀ k t, (joinRows ts k sol).get? t = (sol.get? t).map (fun s => mkJoined ts (k + t) s) := by
  induction sol with
  | nil => intro k t; simp [joinRows]
  | cons s rest ih =>
      intro k t
      cases t with
      | zero => simp [joinRows]
      | succ n =>
          have hkn : k + 1 + n = k + (n + 1) := by omega
          calc (joinRows ts k (s :: rest)).get? (n + 1)
              = (joinRows ts (k + 1) rest).get? n := rfl
            _ = (rest.get? n).map (fun x => mkJoined ts (k + 1 + n) x) := ih (k + 1) n
            _ = ((s :: rest).get? (n + 1)).map (fun x => mkJoined ts (k + (n + 1)) x) := by
                rw [hkn, List.get?_cons_succ]

/-- Counterexample to C8 as stated: on a horizon-length mismatch (two
solved steps, one time-series row), `extract_results` does not fail with
`AlignmentError` — it returns a joined table. -/
theorem extract_returns_table_on_mismatch :
    cSolRows.length ≠ cTsShort.length ∧
    extract_results cSolRows cTsShort ≠ ExtractOutcome.error ExtractErr.alignmentError := by
  constructor
  · simp [cSolRows, cTsShort]
  · simp [extract_results]

/-- **C8 (amended).** Result extraction joins the solved decision-variable
values to the input time series positionally by `t`, and never raises:
for every solution and time series it returns a table with one row per
solved step, row `t` carrying the solved values at `t` joined with the
time series row `t` when it exists (and an empty value otherwise; extra
time-series rows are ignored). -/
theorem extract_positional_join (sol : List SolRow) (ts : List TimeSeriesRow) :
    ∃ rows, extract_results sol ts = ExtractOutcome.ok rows ∧
      rows.length = sol.length ∧
      ∀ t s, sol.get? t = some s →
        rows.get? t = some
          { P_d := s.P_d, P_c := s.P_c, S := s.S, P_m := s.P_m,
            time := (ts.get? t).map (fun r => r.INTERVAL_START),
            LMP := (ts.get? t).map (fun r => r.LMP),
            load := (ts.get? t).map (fun r => r.load) } := by
  refine ⟨joinRows ts 0 sol, rfl, joinRows_length ts sol 0, ?_⟩
  intro t s hst
  rw [joinRows_get ts sol 0 t, hst]
  simp [mkJoined]

/-! ## Claim C9: which financial fields the computation consumes -/

/-- Counterexample to C9 as stated: two financial parameter records that
agree on the real discount rate and the inflation rate but differ in the
`'Time Step (hours)'` field produce different profit columns. -/
theorem profit_depends_on_time_step :
    wFin.realDiscountRate = cFinStep2.realDiscountRate ∧
    wFin.inflationRate = cFinStep2.inflationRate ∧
    profitRow wFin cRowCharge ≠ profitRow cFinStep2 cRowCharge := by
  refine ⟨rfl, rfl, ?_⟩
  norm_num [profitRow, wFin, cFinStep2, cRowCharge]

/-- **C9 (amended).** The profit and NPV computation consumes exactly
three scalar fields of the financial parameter record — the real
discount rate, the inflation rate, and the time step — and no other
field: any two records agreeing on those three produce identical profit
columns, daily finance tables, and NPVs. -/
theorem finance_fields_determine_outputs (f1 f2 : FinanceInputs) (rows : List ResultRow)
    (h1 : f1.realDiscountRate = f2.realDiscountRate)
    (h2 : f1.inflationRate = f2.inflationRate)
    (h3 : f1.timeStep = f2.timeStep) :
    (∀ r, profitRow f1 r = profitRow f2 r) ∧
    (∀ r, noBatteryProfitRow f1 r = noBatteryProfitRow f2 r) ∧
    (∀ r, batteryProfitRow f1 r = batteryProfitRow f2 r) ∧
    dailyFinances f1 rows = dailyFinances f2 rows ∧
    npvOpProfit f1 rows = npvOpProfit f2 rows := by
  have hbp : ∀ r, batteryProfitRow f1 r = batteryProfitRow f2 r := fun r => by
    simp [batteryProfitRow, profitRow, noBatteryProfitRow, h3]
  have hbp' : batteryProfitRow f1 = batteryProfitRow f2 := funext hbp
  have hdf : dailyFinances f1 rows = dailyFinances f2 rows := by
    simp [dailyFinances, daySum, hbp']
  have hnpv : npvOpProfit f1 rows = npvOpProfit f2 rows := by
    simp [npvOpProfit, discountedProfit, dailyDiscountRate, nominalDiscountRate, h1, h2, hdf]
  exact ⟨fun r => by simp [profitRow, h3], fun r => by simp [noBatteryProfitRow, h3],
    hbp, hdf, hnpv⟩

/-- Witness for C9 (amended): two records with the same rates and time
step but different extra columns give the same daily table and NPV. -/
theorem finance_fields_determine_outputs_witness :
    dailyFinances wFin cRowsDischarge = dailyFinances wFinOther cRowsDischarge ∧
    npvOpProfit wFin cRowsDischarge = npvOpProfit wFinOther cRowsDischarge :=
  ⟨(finance_fields_determine_outputs wFin wFinOther cRowsDischarge rfl rfl rfl).2.2.2.1,
   (finance_fields_determine_outputs wFin wFinOther cRowsDischarge rfl rfl rfl).2.2.2.2⟩

/-! ## Claim C7: monotonicity of NPV in the discount rate -/

lemma rpow_365_cancel : ((2 : ℝ) ^ (365 : ℕ)) ^ ((1 : ℝ) / 365) = 2 := by
  rw [← Real.rpow_natCast 2 365, ← Real.rpow_mul (by norm_num : (0 : ℝ) ≤ 2)]
  rw [show ((365 : ℕ) : ℝ) * ((1 : ℝ) / 365) = 1 by norm_num, Real.rpow_one]

/-- The daily finance table of the two-day result table, for any
financial parameters: zero profit on day 0 and `-Δt` on day 1. -/
lemma dailyFinances_twoDay (f : FinanceInputs) :
    dailyFinances f cRowsTwoDay = [(0, 0, 0), (1, -f.timeStep, 1)] := by
  norm_num [dailyFinances, dayList, daySum, dayOfSim, minTime, maxTime, calendarDay,
    cRowsTwoDay, cRowQuiet, cRowChargeDay1, batteryProfitRow, profitRow,
    noBatteryProfitRow, List.filter, List.range_succ]

/-- The NPV of the two-day table: the day-1 loss discounted one day. -/
lemma npvOpProfit_twoDay (f : FinanceInputs) :
    npvOpProfit f cRowsTwoDay = -f.timeStep / (1 + dailyDiscountRate f) := by
  rw [npvOpProfit, dailyFinances_twoDay f]
  simp [discountedProfit, zpow_one]

lemma dailyDiscountRate_cFinLow : dailyDiscountRate cFinLow = 0 := by
  have h : 1 + nominalDiscountRate cFinLow = 1 := by
    norm_num [nominalDiscountRate, cFinLow]
  rw [dailyDiscountRate, h, Real.one_rpow]
  norm_num

lemma dailyDiscountRate_cFinHigh : dailyDiscountRate cFinHigh = 1 := by
  have h : 1 + nominalDiscountRate cFinHigh = (2 : ℝ) ^ (365 : ℕ) := by
    norm_num [nominalDiscountRate, cFinHigh]
  rw [dailyDiscountRate, h, rpow_365_cancel]
  norm_num

/-- Counterexample to C7 as stated: over a fixed result table whose
day-1 battery profit is negative, raising the real discount rate from 0
to `2^365 − 1` (same inflation rate) strictly increases the NPV. -/
theorem npv_not_antitone_in_discount_rate :
    cFinLow.realDiscountRate ≤ cFinHigh.realDiscountRate ∧
    cFinLow.inflationRate = cFinHigh.inflationRate ∧
    npvOpProfit cFinLow cRowsTwoDay < npvOpProfit cFinHigh cRowsTwoDay := by
  refine ⟨by norm_num [cFinLow, cFinHigh], rfl, ?_⟩
  rw [npvOpProfit_twoDay cFinLow, npvOpProfit_twoDay cFinHigh,
    dailyDiscountRate_cFinLow, dailyDiscountRate_cFinHigh]
  norm_num [cFinLow, cFinHigh]

/-- **C7 (amended).** Holding the result table fixed, the NPV is
monotonically non-increasing in the real discount rate provided the
rates are nonnegative and every daily battery profit and day offset in
the table is nonnegative; with a negative daily profit (or a negative
day offset from a non-midnight simulation start) the inequality can
reverse, as the counterexample shows. -/
theorem npv_antitone_in_discount_rate (f1 f2 : FinanceInputs) (rows : List ResultRow)
    (hts : f1.timeStep = f2.timeStep) (hinf : f1.inflationRate = f2.inflationRate)
    (hr0 : 0 ≤ f1.realDiscountRate) (hi0 : 0 ≤ f1.inflationRate)
    (hr : f1.realDiscountRate ≤ f2.realDiscountRate)
    (hpos : ∀ e ∈ dailyFinances f1 rows, 0 ≤ e.2.1 ∧ 0 ≤ e.2.2) :
    npvOpProfit f2 rows ≤ npvOpProfit f1 rows := by
  have hbp' : batteryProfitRow f1 = batteryProfitRow f2 := funext fun r => by
    simp [batteryProfitRow, profitRow, noBatteryProfitRow, hts]
  have hdf : dailyFinances f1 rows = dailyFinances f2 rows := by
    simp [dailyFinances, daySum, hbp']
  have hnom : nominalDiscountRate f1 ≤ nominalDiscountRate f2 := by
    simp only [nominalDiscountRate, ← hinf]
    have h := mul_le_mul_of_nonneg_right
      (by linarith : 1 + f1.realDiscountRate ≤ 1 + f2.realDiscountRate)
      (by linarith : (0 : ℝ) ≤ 1 + f1.inflationRate)
    linarith
  have hnom0 : (1 : ℝ) ≤ 1 + nominalDiscountRate f1 := by
    simp only [nominalDiscountRate]
    nlinarith [mul_nonneg hr0 hi0]
  have ha1 : 1 + dailyDiscountRate f1 = (1 + nominalDiscountRate f1) ^ ((1 : ℝ) / 365) := by
    simp [dailyDiscountRate]
  have ha2 : 1 + dailyDiscountRate f2 = (1 + nominalDiscountRate f2) ^ ((1 : ℝ) / 365) := by
    simp [dailyDiscountRate]
  have h1a : (1 : ℝ) ≤ 1 + dailyDiscountRate f1 := by
    rw [ha1]
    calc (1 : ℝ) = (1 : ℝ) ^ ((1 : ℝ) / 365) := (Real.one_rpow _).symm
      _ ≤ (1 + nominalDiscountRate f1) ^ ((1 : ℝ) / 365) :=
          Real.rpow_le_rpow zero_le_one hnom0 (by norm_num)
  have h12 : 1 + dailyDiscountRate f1 ≤ 1 + dailyDiscountRate f2 := by
    rw [ha1, ha2]
    exact Real.rpow_le_rpow (by linarith) (by linarith) (by norm_num)
  unfold npvOpProfit
  rw [← hdf]
  refine List.sum_le_sum ?_
  intro e he
  obtain ⟨hp, hd⟩ := hpos e he
  unfold discountedProfit
  obtain ⟨n, hn⟩ : ∃ n : ℕ, e.2.2 = (n : ℤ) := ⟨e.2.2.toNat, (Int.toNat_of_nonneg hd).symm⟩
  rw [hn, zpow_natCast, zpow_natCast]
  have hA : 0 < (1 + dailyDiscountRate f1) ^ n := pow_pos (by linarith) n
  have hAB : (1 + dailyDiscountRate f1) ^ n ≤ (1 + dailyDiscountRate f2) ^ n :=
    pow_le_pow_left₀ (by linarith) h12 n
  exact div_le_div_of_nonneg_left hp hA hAB

/-- The daily finance table of the one-row discharging table: one day of
profit `Δt` at day offset 0. -/
lemma dailyFinances_discharge (f : FinanceInputs) :
    dailyFinances f cRowsDischarge = [(0, f.timeStep, 0)] := by
  norm_num [dailyFinances, dayList, daySum, dayOfSim, minTime, maxTime, calendarDay,
    cRowsDischarge, cRowDischarge, batteryProfitRow, profitRow, noBatteryProfitRow,
    List.filter, List.range_succ]

/-- Witness for C7 (amended): with a nonnegative daily profit series, the
NPV at the high rate is at most the NPV at the zero rate. -/
theorem npv_antitone_in_discount_rate_witness :
    npvOpProfit cFinHigh cRowsDischarge ≤ npvOpProfit cFinLow cRowsDischarge := by
  refine npv_antitone_in_discount_rate cFinLow cFinHigh cRowsDischarge rfl rfl
    (by norm_num [cFinLow]) (by norm_num [cFinLow]) (by norm_num [cFinLow, cFinHigh]) ?_
  rw [dailyFinances_discharge]
  intro e he
  simp only [List.mem_singleton] at he
  subst he
  norm_num [cFinLow]

/-! ## Claim C10: battery profit under power balance -/

/-- **C10.** For every result row whose values satisfy the power-balance
constraint `P_m = P_c − P_d + load`, the derived battery profit equals
`−price·(P_c − P_d)·Δt` — an expression free of the load value. -/
theorem battery_profit_load_independent (f : FinanceInputs) (r : ResultRow)
    (h : r.P_m = r.P_c - r.P_d + r.load) :
    batteryProfitRow f r = -(r.LMP * (r.P_c - r.P_d) * f.timeStep) := by
  simp only [batteryProfitRow, profitRow, noBatteryProfitRow, h]
  ring

/-- Witness for C10: a concrete balanced row with nonzero load. -/
theorem battery_profit_load_independent_witness :
    batteryProfitRow wFin cRowBalanced =
      -(cRowBalanced.LMP * (cRowBalanced.P_c - cRowBalanced.P_d) * wFin.timeStep) :=
  battery_profit_load_independent wFin cRowBalanced (by norm_num [cRowBalanced])

end EnergyModeling
